import Mathlib

/-!
Verification development for the SOFC dashboard backend core
(bounded in-memory history buffers, serial-line reading validation,
Simulink sample ingestion, WebSocket connection greeting sequence,
demo mode and the reconnect timer discipline).

The definitions below are a shallow embedding of the TypeScript
sources:
- backend/src/storage.ts (device reading buffer),
- backend/src/simulink/simStream.ts (external sample buffer, fields),
- backend/src/serial.ts (line validation, reconnect scheduling),
- backend/src/websocket.ts (connection handler greeting sequence),
- backend/src/index.ts (REST handlers, demo mode loop),
- backend/src/mockData.ts (demo reading generation shape).

JavaScript runtime values reachable through express.json / JSON.parse
are modelled by `JValue`.  JavaScript numbers are modelled by `JSNum`:
a finite number is represented exactly as a rational (precision is
irrelevant to every property considered here), and the non-finite
doubles NaN / Infinity / -Infinity are explicit constructors.  Note
that JSON.parse never produces NaN, but it does produce Infinity for
overflowing numeric literals such as 1e999, so `JSNum.inf` is a
reachable parse result.
-/

namespace SOFC

/-- Model of a JavaScript number: a finite double (represented exactly
as a rational) or one of the non-finite values. -/
inductive JSNum where
  | fin (q : ℚ)
  | nan
  | inf
  | ninf
deriving DecidableEq, Repr

/-- JS Number.isFinite — the notion of a finite numeric value used by
the specification. -/
def JSNum.isFinite : JSNum → Bool
  | .fin _ => true
  | _ => false

/-- Model of a JavaScript value as produced by JSON.parse, plus
undefined (the result of reading an absent property). -/
inductive JValue where
  | null
  | undefined
  | bool (b : Bool)
  | num (n : JSNum)
  | str (s : String)
  | arr (elems : List JValue)
  | obj (fields : List (String × JValue))
deriving Repr

/-- JS test `typeof v` equals the string "object" (true for null,
arrays and plain objects; false for undefined, booleans, numbers and
strings). -/
def typeofIsObject : JValue → Bool
  | .null => true
  | .arr _ => true
  | .obj _ => true
  | _ => false

/-- JS test `typeof v` equals the string "number". -/
def typeofIsNumber : JValue → Bool
  | .num _ => true
  | _ => false

/-- JavaScript truthiness (logical negation `!v` is the negation of
this). -/
def jsTruthy : JValue → Bool
  | .null => false
  | .undefined => false
  | .bool b => b
  | .num (.fin q) => q ≠ 0
  | .num .nan => false
  | .num _ => true
  | .str s => s ≠ ""
  | .arr _ => true
  | .obj _ => true

/-- Property read `v[k]`: a key lookup on an object, undefined
otherwise (the string keys used by the backend — time, data, t_water
and so on — are never array indices or primitive properties). -/
def getProp (v : JValue) (k : String) : JValue :=
  match v with
  | .obj fields =>
    match fields.lookup k with
    | some w => w
    | none => .undefined
  | _ => .undefined

/-- JS Object.keys for the values the backend stores as sample data
(objects give their key list, arrays their index strings; other values
do not occur as stored data). -/
def jsKeys : JValue → List String
  | .obj fields => fields.map Prod.fst
  | .arr elems => (List.range elems.length).map toString
  | _ => []

/-- JS strict equality of a value with null. -/
def isNullJ : JValue → Bool
  | .null => true
  | _ => false

/-! ### Bounded history buffers

storage.ts (addReading) and simStream.ts (addSimulinkSample) share the
pattern: push the item, then shift from the front while the length
exceeds the capacity.  `shiftWhile` is the eviction loop and
`pushBounded` the push-then-evict step. -/

/-- Eviction loop: shift from the front while the length exceeds the
capacity. -/
def shiftWhile (cap : ℕ) : List α → List α
  | [] => []
  | x :: xs => if (x :: xs).length > cap then shiftWhile cap xs else x :: xs

/-- Push followed by the eviction loop. -/
def pushBounded (cap : ℕ) (l : List α) (x : α) : List α :=
  shiftWhile cap (l ++ [x])

/-! ### Device reading storage (storage.ts) -/

/-- A stored device reading: server timestamp plus the four sensor
fields (their values are whatever numbers passed validation). -/
structure SofcReading where
  ts : String
  t_water : JSNum
  t_air : JSNum
  p_air : JSNum
  p_water : JSNum
deriving DecidableEq, Repr

/-- Constant MAX_READINGS from storage.ts. -/
def MAX_READINGS : ℕ := 500

/-- Function addReading from storage.ts: push, then shift while over
capacity. -/
def addReading (readings : List SofcReading) (r : SofcReading) : List SofcReading :=
  pushBounded MAX_READINGS readings r

/-- JS Array.prototype.slice with a single (possibly negative) integer
argument. -/
def jsSliceFrom (l : List α) (start : ℤ) : List α :=
  if start < 0 then l.drop (max (l.length + start) 0).toNat
  else l.drop (min start (l.length : ℤ)).toNat

/-- Function getReadingsHistory from storage.ts: count is the minimum
of the limit and the stored length, and the result is
slice(-count). -/
def getReadingsHistory (readings : List SofcReading) (limit : ℤ) : List SofcReading :=
  let count : ℤ := min limit (readings.length : ℤ)
  jsSliceFrom readings (-count)

/-- Call of getReadingsHistory with the limit omitted: the source
default parameter is 100. -/
def getReadingsHistoryDefault (readings : List SofcReading) : List SofcReading :=
  getReadingsHistory readings 100

/-! ### Simulink sample storage (simulink/simStream.ts) -/

/-- A Simulink sample as the runtime actually stores it: the handler
copies body.time and body.data through unchanged, so both are
arbitrary JavaScript values (the declared TS value type is not
enforced at runtime). -/
structure SimulinkSample where
  time : JValue
  data : JValue
deriving Repr

/-- Structure SimulinkStreamState from simStream.ts. -/
structure SimulinkStreamState where
  samples : List SimulinkSample
  maxSamples : ℕ
deriving Repr

/-- The initial simState value: no samples, maxSamples 2000. -/
def simStateInit : SimulinkStreamState :=
  { samples := [], maxSamples := 2000 }

/-- The guard at the top of addSimulinkSample: the sample is rejected
unless its time has number type, its data is truthy and its data has
object type. -/
def simSampleValid (s : SimulinkSample) : Bool :=
  typeofIsNumber s.time && jsTruthy s.data && typeofIsObject s.data

/-- Function addSimulinkSample from simStream.ts: validate, push with
eviction at maxSamples, and broadcast the sample (the returned Option
is the broadcast emitted, none when rejected). -/
def addSimulinkSample (st : SimulinkStreamState) (s : SimulinkSample) :
    SimulinkStreamState × Option SimulinkSample :=
  if simSampleValid s then
    ({ st with samples := pushBounded st.maxSamples st.samples s }, some s)
  else
    (st, none)

/-- State part of addSimulinkSample (for folding push sequences). -/
def addSimulinkSampleSt (st : SimulinkStreamState) (s : SimulinkSample) :
    SimulinkStreamState :=
  (addSimulinkSample st s).1

/-- Function getSimulinkHistory from simStream.ts: a full copy when
the limit is omitted, otherwise slice(-count) with count the minimum
of the limit and the stored length. -/
def getSimulinkHistory (st : SimulinkStreamState) (limit : Option ℤ) :
    List SimulinkSample :=
  match limit with
  | none => st.samples
  | some lim =>
    let count : ℤ := min lim (st.samples.length : ℤ)
    jsSliceFrom st.samples (-count)

/-- The key-collection loop of getSimulinkFields: a JS Set filled with
Object.keys of every retained sample, in insertion order. -/
def collectFields (samples : List SimulinkSample) : List String :=
  samples.foldl
    (fun acc s => (jsKeys s.data).foldl (fun a k => if k ∈ a then a else a ++ [k]) acc)
    []

/-- Function getSimulinkFields from simStream.ts: the collected key
set of the currently retained samples, sorted ascending. -/
def getSimulinkFields (st : SimulinkStreamState) : List String :=
  (collectFields st.samples).mergeSort (fun a b => a ≤ b)

/-- Function getSimulinkSampleCount from simStream.ts. -/
def getSimulinkSampleCount (st : SimulinkStreamState) : ℕ :=
  st.samples.length

/-! ### Serial line validation (serial.ts) -/

/-- Per-field check: the field has number type and is not NaN (the
source checks the four typeof conditions and the four isNaN conditions
in one pure conjunction; grouping the two checks per field has the
same value). -/
def numericNonNaN : JValue → Bool
  | .num .nan => false
  | .num _ => true
  | _ => false

/-- The numeric value of a field that passed `numericNonNaN` (the
`.nan` default is unreachable on validated fields). -/
def asNumber : JValue → JSNum
  | .num n => n
  | _ => .nan

/-- Function validateReading from serial.ts: the decoded value must be
a non-null object and its four fields must be non-NaN numbers.  Note
the source has no finiteness check: isNaN applied to Infinity is
false. -/
def validateReading (data : JValue) : Bool :=
  if !typeofIsObject data || isNullJ data then false
  else
    numericNonNaN (getProp data "t_water") &&
    numericNonNaN (getProp data "t_air") &&
    numericNonNaN (getProp data "p_air") &&
    numericNonNaN (getProp data "p_water")

/-- The post-parse part of processLine (serial.ts): if the decoded
value validates, build the reading (spread of the decoded fields plus
the server timestamp), store it with addReading and broadcast it;
otherwise leave storage untouched and broadcast nothing. -/
def processParsed (readings : List SofcReading) (ts : String) (data : JValue) :
    List SofcReading × Option SofcReading :=
  if validateReading data then
    let r : SofcReading :=
      ⟨ts, asNumber (getProp data "t_water"), asNumber (getProp data "t_air"),
        asNumber (getProp data "p_air"), asNumber (getProp data "p_water")⟩
    (addReading readings r, some r)
  else (readings, none)

/-- Function processLine including the JSON.parse outcome: a parse
failure (none, the catch branch) stores and broadcasts nothing. -/
def processLineParsed (readings : List SofcReading) (ts : String)
    (parsed : Option JValue) : List SofcReading × Option SofcReading :=
  match parsed with
  | none => (readings, none)
  | some data => processParsed readings ts data

/-- The device-reading store after processing a whole sequence of
decoded lines, starting from the empty store. -/
def processAll (inputs : List (String × Option JValue)) : List SofcReading :=
  inputs.foldl (fun rs p => (processLineParsed rs p.1 p.2).1) []

/-- Predicate: all four stored fields are numbers other than NaN. -/
def readingNumericOk (r : SofcReading) : Prop :=
  r.t_water ≠ .nan ∧ r.t_air ≠ .nan ∧ r.p_air ≠ .nan ∧ r.p_water ≠ .nan

/-! ### Demo mode and the device channel control state (index.ts)

index.ts starts demo mode (startDemoMode) only at startup when the
initial serial connection fails and in the serial-settings handler
when the new connection fails; stopDemoMode is called only in that
handler when the new connection succeeds (and at shutdown).  The
interval callback (run once per second while the interval exists)
checks isSerialConnected and, when false, generates a demo reading and
broadcasts it. -/

/-- The body of the demo-mode interval callback (index.ts): when the
serial port is not connected, generateDemoReading produces a reading
(passed here as `generated`, since its values are random draws) and
broadcastReading is invoked on it.  First component: the device
reading store after the callback; second component: the broadcast
emitted. -/
def demoTick (connected : Bool) (readings : List SofcReading)
    (generated : SofcReading) : List SofcReading × Option SofcReading :=
  if ¬ connected then (readings, some generated) else (readings, none)

/-- A concrete demo reading in the generateDemoReading ranges. -/
def demoReading : SofcReading :=
  ⟨"2026-01-01T00:00:00.000Z", .fin 28, .fin 25, .fin (5/2), .fin 3⟩

/-- Control state of the device channel of the backend: whether the
serial port is open and whether the demo interval exists. -/
structure ArbState where
  serialOpen : Bool
  demoOn : Bool
deriving DecidableEq, Repr

/-- Initial control state (no port open, no demo interval). -/
def arbInit : ArbState := ⟨false, false⟩

/-- Control events of the device channel. -/
inductive AEv where
  /-- Startup in index.ts: initSerial resolves with `ok`; when it
  fails, startDemoMode is called. -/
  | startup (ok : Bool)
  /-- The serial-settings request: updateSerialConfig resolves with
  `ok`; stopDemoMode on success, startDemoMode on failure. -/
  | settings (ok : Bool)
  /-- The serial port emits an error or close event while open: the
  handlers in serial.ts broadcast a status and call scheduleReconnect
  — and nothing else. -/
  | serialDown
  /-- The reconnect timer fires and connectSerial resolves with
  `ok`. -/
  | reconnect (ok : Bool)
  /-- One firing of the demo interval callback (if the interval
  exists), with `r` the reading generateDemoReading would return. -/
  | tick (r : SofcReading)

/-- One control step; the second component is the demo reading
broadcast by this step, if any. -/
def astep (s : ArbState) : AEv → ArbState × Option SofcReading
  | .startup ok => (⟨ok, s.demoOn || !ok⟩, none)
  | .settings ok => (⟨ok, !ok⟩, none)
  | .serialDown => (⟨false, s.demoOn⟩, none)
  | .reconnect ok => (⟨ok, s.demoOn⟩, none)
  | .tick r => (s, if s.demoOn && !s.serialOpen then some r else none)

/-! ### External sample ingestion (POST /data, POST /api/sim-data) -/

/-- Outcome of an ingestion request: the ok response or the 400 error
response. -/
inductive PostResult where
  | ok
  | badRequest
deriving DecidableEq, Repr

/-- The sample a handler builds from an accepted body: an object with
the time and data members of the body, copied through unchanged. -/
def ingestSample (body : JValue) : SimulinkSample :=
  ⟨getProp body "time", getProp body "data"⟩

/-- The POST /data handler: reject with 400 unless the body is a
non-null value of object type, its time member has number type and its
data member is a non-null value of object type; otherwise build
`ingestSample body`, hand it to addSimulinkSample and answer with the
ok response.  Components: HTTP outcome, new stream state, broadcast
emitted. -/
def postData (st : SimulinkStreamState) (body : JValue) :
    PostResult × SimulinkStreamState × Option SimulinkSample :=
  if !typeofIsObject body || isNullJ body ||
      !typeofIsNumber (getProp body "time") ||
      !typeofIsObject (getProp body "data") || isNullJ (getProp body "data") then
    (.badRequest, st, none)
  else
    (.ok, (addSimulinkSample st (ingestSample body)).1,
      (addSimulinkSample st (ingestSample body)).2)

/-- The POST /api/sim-data handler: identical validation and effect
(the source duplicates the code of POST /data minus logging). -/
def postSimData (st : SimulinkStreamState) (body : JValue) :
    PostResult × SimulinkStreamState × Option SimulinkSample :=
  if !typeofIsObject body || isNullJ body ||
      !typeofIsNumber (getProp body "time") ||
      !typeofIsObject (getProp body "data") || isNullJ (getProp body "data") then
    (.badRequest, st, none)
  else
    (.ok, (addSimulinkSample st (ingestSample body)).1,
      (addSimulinkSample st (ingestSample body)).2)

/-- The shape the handlers actually accept: a non-null body of object
type whose time member is of number type and whose data member is a
non-null value of object type (plain object or array). -/
def acceptableBody (body : JValue) : Prop :=
  typeofIsObject body = true ∧ body ≠ .null ∧
  (∃ n, getProp body "time" = .num n) ∧
  typeofIsObject (getProp body "data") = true ∧
  getProp body "data" ≠ .null

/-! ### Live channel (websocket.ts) -/

/-- Messages sent over the live channel. -/
inductive WsMsg where
  | history (readings : List SofcReading)
  | reading (r : SofcReading)
  | simSample (s : SimulinkSample)
  | status (level : String) (message : String)

/-- The connection handler of initWebSocket (websocket.ts): send one
history message with getReadingsHistory at limit 100, then one
simulink-sample message per entry of getSimulinkHistory at limit 1000
(the length guard in the source is redundant: iterating an empty list
sends nothing), then the welcome status message — all before any live
event can be delivered to this client. -/
def onConnection (readings : List SofcReading) (st : SimulinkStreamState) :
    List WsMsg :=
  [WsMsg.history (getReadingsHistory readings 100)]
    ++ (getSimulinkHistory st (some 1000)).map WsMsg.simSample
    ++ [WsMsg.status "info" "Connected to SOFC monitoring server"]

/-- The simulink samples carried by a message sequence, in order. -/
def simBurst (msgs : List WsMsg) : List SimulinkSample :=
  msgs.filterMap (fun m => match m with | .simSample s => some s | _ => none)

/-! ### Reconnect timer discipline (serial.ts)

serial.ts keeps a single module variable reconnectTimer (the slot).
scheduleReconnect clears any timer the slot points to and replaces it
with a freshly created one; closeSerial (run at the start of every
connect attempt and at shutdown) clears the slot.  The runtime set of
live pending timers is modelled explicitly (`pending`, a list of timer
ids; `nextId` generates fresh ids), so "at most one pending reconnect
timer" is a real property of the model, not a consequence of the state
type. -/

/-- Timer state: pending timer ids in the runtime, the reconnectTimer
variable, and the id generator. -/
structure TimerState where
  pending : List ℕ
  slot : Option ℕ
  nextId : ℕ
deriving DecidableEq, Repr

/-- Initial state: no timer pending, reconnectTimer null. -/
def timerInit : TimerState := ⟨[], none, 0⟩

/-- The timer-clearing block of closeSerial: clearTimeout on the slot
timer, then null the slot (a no-op when the slot is empty). -/
def clearSlotTimer (s : TimerState) : TimerState :=
  match s.slot with
  | some t => { s with pending := s.pending.erase t, slot := none }
  | none => s

/-- Function scheduleReconnect: clearTimeout on the slot timer if set,
then store a freshly created timer in the slot — the cleared id is
removed from the pending set of the runtime and a fresh timer is
created. -/
def scheduleReconnect (s : TimerState) : TimerState :=
  let p := match s.slot with
    | some t => s.pending.erase t
    | none => s.pending
  ⟨p ++ [s.nextId], some s.nextId, s.nextId + 1⟩

/-- Events acting on the reconnect timer state. -/
inductive SEv where
  /-- A manual connect attempt (initSerial / updateSerialConfig, both
  via connectSerial) whose open succeeds: closeSerial first (cancelling
  any pending timer), then no new timer. -/
  | connectOk
  /-- A manual connect attempt whose open fails: closeSerial first,
  then scheduleReconnect. -/
  | connectFail
  /-- The port emits an error event: the handler calls
  scheduleReconnect. -/
  | transportError
  /-- The port emits a close event: the handler calls
  scheduleReconnect. -/
  | transportClose
  /-- Pending timer `tid` fires (the runtime removes it from the
  pending set) and its callback connectSerial runs, resolving with
  `ok`; firing an id that is not pending is a no-op. -/
  | timerFire (tid : ℕ) (ok : Bool)
  /-- A direct invocation of the exported closeSerial (the cleanup
  path; note every connect attempt also begins with it — the SIGINT
  handler itself only stops the demo interval). -/
  | shutdown

/-- One step of the reconnect timer state machine. -/
def sstep (s : TimerState) : SEv → TimerState
  | .connectOk => clearSlotTimer s
  | .connectFail => scheduleReconnect (clearSlotTimer s)
  | .transportError => scheduleReconnect s
  | .transportClose => scheduleReconnect s
  | .timerFire tid ok =>
    if tid ∈ s.pending then
      let s1 : TimerState := { s with pending := s.pending.erase tid }
      if ok then clearSlotTimer s1 else scheduleReconnect (clearSlotTimer s1)
    else s
  | .shutdown => clearSlotTimer s

/-- The single-slot invariant: either no timer is pending, or exactly
one is and the reconnectTimer variable points to it. -/
def TimerInv (s : TimerState) : Prop :=
  s.pending = [] ∨ ∃ t, s.pending = [t] ∧ s.slot = some t

/-! ### Concrete values used by counterexamples and witnesses -/

/-- The sample carrying field a in the eviction example of the spec. -/
def sampleA : SimulinkSample :=
  ⟨.num (.fin 0), .obj [("a", .num (.fin 1))]⟩

/-- The sample carrying field b in the eviction example of the spec. -/
def sampleB : SimulinkSample :=
  ⟨.num (.fin 1), .obj [("b", .num (.fin 2))]⟩

/-- State after ingesting `sampleA` and then 2000 copies of `sampleB`
(capacity 2000, so `sampleA` has been evicted). -/
def c2State : SimulinkStreamState :=
  (sampleA :: List.replicate 2000 sampleB).foldl addSimulinkSampleSt simStateInit

/-- A decoded record whose t_water is Infinity (as JSON.parse yields
for the numeric literal 1e999) and whose other three fields are
finite. -/
def c5InfData : JValue :=
  .obj [("t_water", .num .inf), ("t_air", .num (.fin 2)),
        ("p_air", .num (.fin 3)), ("p_water", .num (.fin 4))]

/-- A well-formed decoded record with the four finite fields of the
example line of the spec. -/
def c5GoodData : JValue :=
  .obj [("t_water", .num (.fin (55/2))), ("t_air", .num (.fin (281/10))),
        ("p_air", .num (.fin (12/5))), ("p_water", .num (.fin (31/10)))]

/-- The reading stored for `c5GoodData` with timestamp t0. -/
def c5GoodReading : SofcReading :=
  ⟨"t0", .fin (55/2), .fin (281/10), .fin (12/5), .fin (31/10)⟩

/-- A request body whose time is Infinity (the JSON.parse result of
the numeric literal 1e999) and whose data is an empty object. -/
def c6InfBody : JValue := .obj [("time", .num .inf), ("data", .obj [])]

/-- A generic valid stored reading used for concrete buffer states. -/
def rSample : SofcReading :=
  ⟨"2026-01-01T00:00:01.000Z", .fin 27, .fin 28, .fin 2, .fin 3⟩

/-- A retained-sample state holding 1001 samples (capacity is 2000, so
all 1001 are retained). -/
def c7SimState : SimulinkStreamState :=
  ⟨List.replicate 1001 sampleB, 2000⟩

/-! ## Theorems -/

/-! ### Buffer lemmas -/

theorem shiftWhile_eq_drop (cap : ℕ) (l : List α) :
    shiftWhile cap l = l.drop (l.length - cap) := by
  induction l with
  | nil => simp [shiftWhile]
  | cons x xs ih =>
    by_cases h : (x :: xs).length > cap
    · rw [shiftWhile, if_pos h, ih]
      have h1 : xs.length + 1 - cap = (xs.length - cap) + 1 := by
        simp at h; omega
      simp only [List.length_cons, h1, List.drop_succ_cons]
    · rw [shiftWhile, if_neg h]
      simp at h
      have : (x :: xs).length - cap = 0 := by simp; omega
      rw [this, List.drop_zero]

theorem pushBounded_eq_drop (cap : ℕ) (l : List α) (x : α) :
    pushBounded cap l x = (l ++ [x]).drop ((l ++ [x]).length - cap) :=
  shiftWhile_eq_drop cap (l ++ [x])

theorem drop_excess_append (cap : ℕ) (m xs : List α) :
    (m.drop (m.length - cap) ++ xs).drop
      ((m.drop (m.length - cap) ++ xs).length - cap) =
    (m ++ xs).drop ((m ++ xs).length - cap) := by
  have hm : m = m.take (m.length - cap) ++ m.drop (m.length - cap) :=
    (List.take_append_drop _ m).symm
  set pre := m.take (m.length - cap) with hpre
  set suf := m.drop (m.length - cap) with hsuf
  have hlenpre : pre.length = m.length - cap := by
    rw [hpre]; simp
  have hlensuf : suf.length = m.length - (m.length - cap) := by
    rw [hsuf]; simp
  conv_rhs => rw [hm, List.append_assoc]
  have hidx : (pre ++ (suf ++ xs)).length - cap =
      pre.length + ((suf ++ xs).length - cap) := by
    simp only [List.length_append]
    omega
  rw [hidx, List.drop_append]

theorem foldl_pushBounded (cap : ℕ) (l : List α) :
    ∀ a : List α, a.length ≤ cap →
      l.foldl (pushBounded cap) a = (a ++ l).drop ((a ++ l).length - cap) := by
  induction l with
  | nil =>
    intro a ha
    simp only [List.foldl_nil, List.append_nil]
    rw [show a.length - cap = 0 by omega, List.drop_zero]
  | cons x xs ih =>
    intro a ha
    rw [List.foldl_cons]
    have hlen : (pushBounded cap a x).length ≤ cap := by
      rw [pushBounded_eq_drop]; simp; omega
    rw [ih _ hlen, pushBounded_eq_drop]
    have := drop_excess_append cap (a ++ [x]) xs
    simpa using this

theorem foldl_pushBounded_nil (cap : ℕ) (l : List α) :
    l.foldl (pushBounded cap) [] = l.drop (l.length - cap) := by
  simpa using foldl_pushBounded cap l [] (by simp)

/-- Folding valid samples through addSimulinkSample only pushes them
into the bounded samples list; maxSamples is never changed. -/
theorem foldl_addSimulinkSampleSt (ss : List SimulinkSample) :
    ∀ st : SimulinkStreamState, (∀ s ∈ ss, simSampleValid s = true) →
      (ss.foldl addSimulinkSampleSt st).samples
          = ss.foldl (pushBounded st.maxSamples) st.samples ∧
      (ss.foldl addSimulinkSampleSt st).maxSamples = st.maxSamples := by
  induction ss with
  | nil => intro st _; simp
  | cons s rest ih =>
    intro st hv
    have hs : simSampleValid s = true := hv s (List.mem_cons_self s rest)
    have hstep : addSimulinkSampleSt st s =
        { st with samples := pushBounded st.maxSamples st.samples s } := by
      simp [addSimulinkSampleSt, addSimulinkSample, hs]
    rw [List.foldl_cons, List.foldl_cons, hstep]
    exact ih _ (fun t ht => hv t (List.mem_cons_of_mem s ht))

/-- C1: For every capacity C and every push sequence of length L > C,
after all pushes the bounded history buffer has length exactly C and
its contents equal the last C pushed items in push order (oldest
first); and in particular this holds for the device-Reading buffer
(addReading, capacity 500) and for the external-sample buffer
(addSimulinkSample, capacity 2000) on well-formed samples. -/
theorem c1_bounded_buffer_keeps_last {α : Type} (C : ℕ) (l : List α)
    (h : C < l.length) :
    ((l.foldl (pushBounded C) []).length = C ∧
      l.foldl (pushBounded C) [] = l.drop (l.length - C)) ∧
    (∀ rs : List SofcReading, 500 < rs.length →
      (rs.foldl addReading []).length = 500 ∧
      rs.foldl addReading [] = rs.drop (rs.length - 500)) ∧
    (∀ ss : List SimulinkSample, (∀ s ∈ ss, simSampleValid s = true) →
      2000 < ss.length →
      (ss.foldl addSimulinkSampleSt simStateInit).samples.length = 2000 ∧
      (ss.foldl addSimulinkSampleSt simStateInit).samples
        = ss.drop (ss.length - 2000)) := by
  refine ⟨⟨?_, foldl_pushBounded_nil C l⟩, ?_, ?_⟩
  · rw [foldl_pushBounded_nil]; simp; omega
  · intro rs hrs
    have he : rs.foldl addReading [] = rs.foldl (pushBounded 500) [] := rfl
    refine ⟨?_, by rw [he, foldl_pushBounded_nil]⟩
    rw [he, foldl_pushBounded_nil]; simp; omega
  · intro ss hv hss
    obtain ⟨h1, _⟩ := foldl_addSimulinkSampleSt ss simStateInit hv
    have he : (ss.foldl addSimulinkSampleSt simStateInit).samples
        = ss.foldl (pushBounded 2000) [] := by
      rw [h1]; rfl
    refine ⟨?_, by rw [he, foldl_pushBounded_nil]⟩
    rw [he, foldl_pushBounded_nil]; simp; omega

/-- C1 witness: concrete instances — pushing [1,2,3] at capacity 1
leaves exactly [3], and pushing 501 identical readings through
addReading leaves exactly 500 of them. -/
theorem c1_bounded_buffer_keeps_last_witness :
    (([1, 2, 3] : List ℕ).foldl (pushBounded 1) []).length = 1 ∧
    ((List.replicate 501 (⟨"t", .fin 1, .fin 2, .fin 3, .fin 4⟩ : SofcReading)).foldl
        addReading []).length = 500 := by
  have h := c1_bounded_buffer_keeps_last 1 ([1, 2, 3] : List ℕ) (by decide)
  refine ⟨h.1.1, ?_⟩
  have h2 := (h.2.1 (List.replicate 501 ⟨"t", .fin 1, .fin 2, .fin 3, .fin 4⟩)
    (by rw [List.length_replicate]; omega)).1
  exact h2

/-! ### C2: known fields after eviction -/

/-- Folding a function that leaves the accumulator unchanged on every
list element returns the accumulator. -/
theorem foldl_fixed {β : Type} (f : β → α → β) (a : β) (l : List α)
    (h : ∀ x ∈ l, f a x = a) : l.foldl f a = a := by
  induction l with
  | nil => rfl
  | cons x xs ih =>
    rw [List.foldl_cons, h x (List.mem_cons_self x xs)]
    exact ih (fun y hy => h y (List.mem_cons_of_mem x hy))

theorem mem_insertKeys (keys : List String) (k : String) :
    ∀ acc : List String,
      (k ∈ keys.foldl (fun a kk => if kk ∈ a then a else a ++ [kk]) acc ↔
        k ∈ acc ∨ k ∈ keys) := by
  induction keys with
  | nil => intro acc; simp
  | cons k0 rest ih =>
    intro acc
    rw [List.foldl_cons, ih]
    by_cases h0 : k0 ∈ acc
    · rw [if_pos h0]
      constructor
      · rintro (h | h)
        · exact Or.inl h
        · exact Or.inr (List.mem_cons_of_mem k0 h)
      · rintro (h | h)
        · exact Or.inl h
        · rcases List.mem_cons.mp h with h | h
          · exact Or.inl (h ▸ h0)
          · exact Or.inr h
    · rw [if_neg h0]
      simp only [List.mem_append, List.mem_singleton, List.mem_cons]
      tauto

theorem mem_collectFields_aux (k : String) (samples : List SimulinkSample) :
    ∀ acc : List String,
      (k ∈ samples.foldl
          (fun acc s =>
            (jsKeys s.data).foldl (fun a kk => if kk ∈ a then a else a ++ [kk]) acc)
          acc ↔
        k ∈ acc ∨ ∃ s ∈ samples, k ∈ jsKeys s.data) := by
  induction samples with
  | nil => intro acc; simp
  | cons s rest ih =>
    intro acc
    rw [List.foldl_cons, ih, mem_insertKeys]
    simp only [List.mem_cons]
    constructor
    · rintro (⟨h | h⟩ | ⟨t, ht, hk⟩)
      · exact Or.inl h
      · exact Or.inr ⟨s, Or.inl rfl, h⟩
      · exact Or.inr ⟨t, Or.inr ht, hk⟩
    · rintro (h | ⟨t, ht | ht, hk⟩)
      · exact Or.inl (Or.inl h)
      · exact Or.inl (Or.inr (ht ▸ hk))
      · exact Or.inr ⟨t, ht, hk⟩

theorem mem_collectFields (k : String) (samples : List SimulinkSample) :
    k ∈ collectFields samples ↔ ∃ s ∈ samples, k ∈ jsKeys s.data := by
  rw [collectFields, mem_collectFields_aux]
  simp

theorem c2State_samples : c2State.samples = List.replicate 2000 sampleB := by
  have hv : ∀ s ∈ sampleA :: List.replicate 2000 sampleB, simSampleValid s = true := by
    intro s hs
    rcases List.mem_cons.mp hs with h | h
    · rw [h]; rfl
    · rw [List.eq_of_mem_replicate h]; rfl
  obtain ⟨h1, _⟩ := foldl_addSimulinkSampleSt _ simStateInit hv
  rw [c2State, h1]
  show List.foldl (pushBounded 2000) [] _ = _
  rw [foldl_pushBounded_nil]
  simp only [List.length_cons, List.length_replicate]
  rw [show 2000 + 1 - 2000 = 1 from rfl]
  rw [List.drop_succ_cons, List.drop_zero]

theorem collectFields_c2 : collectFields (List.replicate 2000 sampleB) = ["b"] := by
  rw [show (2000 : ℕ) = 1999 + 1 from rfl, List.replicate_succ, collectFields,
    List.foldl_cons]
  rw [show ((jsKeys sampleB.data).foldl
      (fun a kk => if kk ∈ a then a else a ++ [kk]) []) = ["b"] from rfl]
  exact foldl_fixed _ _ _ (fun x hx => by rw [List.eq_of_mem_replicate hx]; rfl)

/-- C2 counterexample: after ingesting a sample with field a and then
2000 samples with field b (so the a-sample is evicted from the
capacity-2000 buffer), getSimulinkFields returns only b, not a and b:
field discovery is un-learned by eviction. -/
theorem c2_known_fields_cex :
    getSimulinkFields c2State = ["b"] ∧
    "a" ∉ getSimulinkFields c2State ∧
    getSimulinkFields c2State ≠ ["a", "b"] := by
  have h : getSimulinkFields c2State = ["b"] := by
    rw [getSimulinkFields, c2State_samples, collectFields_c2]
    simp [List.mergeSort]
  refine ⟨h, ?_, ?_⟩
  · rw [h]; decide
  · rw [h]; decide

/-- C2 amended: getSimulinkFields returns the sorted-ascending set of
field names appearing in the currently retained samples of the history
buffer (fields appearing only on evicted samples are dropped):
membership is equivalent to occurrence in some retained sample, and
the result is sorted. -/
theorem c2_known_fields_of_retained (st : SimulinkStreamState) (k : String) :
    (k ∈ getSimulinkFields st ↔ ∃ s ∈ st.samples, k ∈ jsKeys s.data) ∧
    (getSimulinkFields st).Sorted (· ≤ ·) := by
  constructor
  · rw [getSimulinkFields, List.mem_mergeSort, mem_collectFields]
  · exact List.sorted_mergeSort' _

/-! ### C3 / C4: demo mode -/

/-- C3 counterexample: in demo mode (device disconnected) a generated
reading is broadcast, but the device-Reading history buffer is left
unchanged — the reading is never appended to it, so it is not routed
exactly as if it were a real device Reading (the serial path stores
then broadcasts; the demo path only broadcasts). -/
theorem c3_demo_reading_not_stored_cex :
    (demoTick false [] demoReading).2 = some demoReading ∧
    (demoTick false [] demoReading).1 = [] ∧
    demoReading ∉ (demoTick false [] demoReading).1 := by
  refine ⟨rfl, rfl, ?_⟩
  rw [show (demoTick false [] demoReading).1 = [] from rfl]
  exact List.not_mem_nil demoReading

/-- C3 amended: every synthetic Reading produced by a demo tick while
the device is disconnected is broadcast to connected clients, but it
is not appended to the device-Reading history buffer (the buffer is
unchanged by every demo tick); while connected the tick broadcasts
nothing. -/
theorem c3_demo_reading_broadcast_only (connected : Bool)
    (readings : List SofcReading) (r : SofcReading) :
    (demoTick connected readings r).1 = readings ∧
    (connected = false → (demoTick connected readings r).2 = some r) ∧
    (connected = true → (demoTick connected readings r).2 = none) := by
  cases connected
  · exact ⟨rfl, fun _ => rfl, fun h => absurd h (by decide)⟩
  · exact ⟨rfl, fun h => absurd h (by decide), fun _ => rfl⟩

/-- C3 amended witness: concrete demo tick while disconnected. -/
theorem c3_demo_reading_broadcast_only_witness :
    (demoTick false [demoReading] demoReading).2 = some demoReading :=
  (c3_demo_reading_broadcast_only false [demoReading] demoReading).2.1 rfl

/-- C4: failing execution — the server starts with the serial device
connected, the port then errors/closes (an Open to Disconnected
transition), yet the following ticks generate no demo reading at all:
the error and close handlers only schedule a reconnect and never start
demo mode, contradicting the claim (and the statement in the project
documentation that the system automatically falls back to demo mode
when the device disconnects). -/
theorem c4_demo_not_started_on_disconnect :
    ((astep arbInit (.startup true)).1.serialOpen = true) ∧
    ((astep (astep arbInit (.startup true)).1 .serialDown).1.serialOpen = false) ∧
    ((astep (astep (astep arbInit (.startup true)).1 .serialDown).1
        (.tick demoReading)).2 = none) ∧
    ((astep (astep (astep (astep arbInit (.startup true)).1 .serialDown).1
        (.tick demoReading)).1 (.tick demoReading)).2 = none) :=
  ⟨rfl, rfl, rfl, rfl⟩

/-! ### C5: serial line validation -/

theorem mem_pushBounded {cap : ℕ} {l : List α} {x r : α}
    (h : r ∈ pushBounded cap l x) : r ∈ l ++ [x] := by
  rw [pushBounded_eq_drop] at h
  exact List.drop_subset _ _ h

theorem numericNonNaN_asNumber {v : JValue} (h : numericNonNaN v = true) :
    asNumber v ≠ .nan := by
  cases v with
  | num n => cases n <;> simp_all [numericNonNaN, asNumber]
  | _ => simp_all [numericNonNaN]

theorem validateReading_fields {d : JValue} (h : validateReading d = true) :
    numericNonNaN (getProp d "t_water") = true ∧
    numericNonNaN (getProp d "t_air") = true ∧
    numericNonNaN (getProp d "p_air") = true ∧
    numericNonNaN (getProp d "p_water") = true := by
  rw [validateReading] at h
  by_cases hg : (!typeofIsObject d || isNullJ d) = true
  · rw [if_pos hg] at h; cases h
  · rw [if_neg hg] at h
    simp only [Bool.and_eq_true] at h
    tauto

theorem processAll_aux (inputs : List (String × Option JValue)) :
    ∀ rs : List SofcReading, (∀ r ∈ rs, readingNumericOk r) →
      ∀ r ∈ inputs.foldl (fun rs p => (processLineParsed rs p.1 p.2).1) rs,
        readingNumericOk r := by
  induction inputs with
  | nil => intro rs h; simpa using h
  | cons p rest ih =>
    intro rs h
    rw [List.foldl_cons]
    apply ih
    intro r hr
    match hp : p.2 with
    | none =>
      rw [hp] at hr
      exact h r hr
    | some d =>
      rw [hp] at hr
      by_cases hv : validateReading d = true
      · rw [show processLineParsed rs p.1 (some d) = processParsed rs p.1 d from rfl,
          processParsed, if_pos hv] at hr
        rcases List.mem_append.mp (mem_pushBounded hr) with hmem | hnew
        · exact h r hmem
        · obtain ⟨h1, h2, h3, h4⟩ := validateReading_fields hv
          rw [List.mem_singleton.mp hnew]
          exact ⟨numericNonNaN_asNumber h1, numericNonNaN_asNumber h2,
            numericNonNaN_asNumber h3, numericNonNaN_asNumber h4⟩
      · rw [show processLineParsed rs p.1 (some d) = processParsed rs p.1 d from rfl,
          processParsed, if_neg hv] at hr
        exact h r hr

/-- C5 counterexample: the device line with t_water given as the
numeric literal 1e999 decodes (via JSON.parse) to a record whose
t_water is Infinity; validateReading accepts it (isNaN applied to
Infinity is false and there is no finiteness check) and the reading is
stored with a non-finite field — refuting the invariant that every
stored Reading has all four fields finite and that non-finite fields
are rejected before storage. -/
theorem c5_nonfinite_reading_stored_cex :
    validateReading c5InfData = true ∧
    (processParsed [] "t0" c5InfData).1 =
      [⟨"t0", .inf, .fin 2, .fin 3, .fin 4⟩] ∧
    JSNum.isFinite (.inf) = false :=
  ⟨rfl, rfl, rfl⟩

/-- C5 amended: every Reading stored in the device-Reading history
buffer has all four numeric fields present, of number type and not NaN
(but not necessarily finite: Infinity passes validation); any decoded
record that fails validation — missing, non-numeric or NaN field — and
any line whose payload fails to parse is rejected before storage, with
the buffer left completely unchanged (never partially stored). -/
theorem c5_stored_readings_validated (inputs : List (String × Option JValue)) :
    (∀ r ∈ processAll inputs, readingNumericOk r) ∧
    (∀ (rs : List SofcReading) (ts : String) (d : JValue),
      validateReading d = false → processParsed rs ts d = (rs, none)) ∧
    (∀ (rs : List SofcReading) (ts : String),
      processLineParsed rs ts none = (rs, none)) := by
  refine ⟨processAll_aux inputs [] (by simp), ?_, fun rs ts => rfl⟩
  intro rs ts d hv
  rw [processParsed, if_neg (by rw [hv]; exact Bool.false_ne_true)]

/-- C5 amended witness: processing the good record stores exactly one
reading and it satisfies the invariant. -/
theorem c5_stored_readings_validated_witness :
    readingNumericOk c5GoodReading :=
  (c5_stored_readings_validated [("t0", some c5GoodData)]).1 c5GoodReading
    (by rw [show processAll [("t0", some c5GoodData)] = [c5GoodReading] from rfl]
        exact List.mem_singleton_self _)

/-! ### C6 / C10: external sample ingestion -/

theorem isNullJ_false_iff (v : JValue) : isNullJ v = false ↔ v ≠ .null := by
  cases v <;> simp [isNullJ]

theorem typeofIsNumber_iff (v : JValue) :
    typeofIsNumber v = true ↔ ∃ n, v = .num n := by
  cases v <;> simp [typeofIsNumber]

theorem jsTruthy_of_object {v : JValue} (hobj : typeofIsObject v = true)
    (hnn : v ≠ .null) : jsTruthy v = true := by
  cases v <;> simp_all [typeofIsObject, jsTruthy]

theorem postGuard_false_iff (body : JValue) :
    (!typeofIsObject body || isNullJ body ||
      !typeofIsNumber (getProp body "time") ||
      !typeofIsObject (getProp body "data") ||
      isNullJ (getProp body "data")) = false ↔
    acceptableBody body := by
  simp only [Bool.or_eq_false_iff, Bool.not_eq_false', acceptableBody,
    isNullJ_false_iff, typeofIsNumber_iff]
  tauto

/-- C6 counterexample: the handler accepts a body whose time is
Infinity — not a finite number — answering with the ok response and
storing the sample, while the claim requires a ValidationError / 400
with the history unchanged whenever time is not a finite number (the
source only checks that the time member has number type). -/
theorem c6_nonfinite_time_accepted_cex :
    (postData simStateInit c6InfBody).1 = .ok ∧
    (postData simStateInit c6InfBody).2.1.samples = [⟨.num .inf, .obj []⟩] ∧
    JSNum.isFinite (.inf) = false :=
  ⟨rfl, rfl, rfl⟩

/-- C6 amended: ingestion (both POST /data and POST /api/sim-data)
fails with the 400 response exactly when the body is not a non-null
value of object type, or its time member is not of number type, or its
data member is not a non-null value of object type (finiteness of time
is not checked); on failure the stored sample history is left
completely unchanged, and on success the response is the ok response
and the sample built from the time and data members is pushed into the
bounded history. -/
theorem c6_ingest_validation (st : SimulinkStreamState) (body : JValue) :
    ((postData st body).1 = .badRequest ↔ ¬ acceptableBody body) ∧
    ((postData st body).1 = .badRequest → (postData st body).2.1 = st) ∧
    (acceptableBody body →
      (postData st body).1 = .ok ∧
      (postData st body).2.1.samples =
        pushBounded st.maxSamples st.samples (ingestSample body)) ∧
    postSimData st body = postData st body := by
  by_cases hacc : acceptableBody body
  · have hg := (postGuard_false_iff body).mpr hacc
    have hvalid : simSampleValid (ingestSample body) = true := by
      obtain ⟨_, _, ⟨n, htime⟩, hdobj, hdnn⟩ := hacc
      simp only [simSampleValid, ingestSample, Bool.and_eq_true]
      exact ⟨⟨by rw [htime]; rfl, jsTruthy_of_object hdobj hdnn⟩, hdobj⟩
    rw [postData, postSimData, if_neg (by rw [hg]; exact Bool.false_ne_true)]
    refine ⟨?_, ?_, fun _ => ⟨rfl, ?_⟩, rfl⟩
    · simp [hacc]
    · intro h; simp at h
    · simp [addSimulinkSample, hvalid]
  · have hg : (!typeofIsObject body || isNullJ body ||
        !typeofIsNumber (getProp body "time") ||
        !typeofIsObject (getProp body "data") ||
        isNullJ (getProp body "data")) = true := by
      rcases hb : (!typeofIsObject body || isNullJ body ||
        !typeofIsNumber (getProp body "time") ||
        !typeofIsObject (getProp body "data") ||
        isNullJ (getProp body "data")) with _ | _
      · exact absurd ((postGuard_false_iff body).mp hb) hacc
      · rfl
    rw [postData, postSimData, if_pos hg]
    exact ⟨by simp [hacc], fun _ => rfl, fun h => absurd h hacc, rfl⟩

/-- C6 amended witness: a malformed body (data missing) is rejected
with the state untouched, and a well-formed body is accepted. -/
theorem c6_ingest_validation_witness :
    (postData simStateInit (.obj [("time", .num (.fin 1))])).2.1 = simStateInit ∧
    (postData simStateInit
      (.obj [("time", .num (.fin 1)), ("data", .obj [("a", .num (.fin 2))])])).1 = .ok := by
  constructor
  · exact (c6_ingest_validation simStateInit (.obj [("time", .num (.fin 1))])).2.1 rfl
  · refine ((c6_ingest_validation simStateInit _).2.2.1 ?_).1
    exact ⟨rfl, fun h => JValue.noConfusion h, ⟨.fin 1, rfl⟩, rfl,
      fun h => JValue.noConfusion h⟩

/-- C10: for every body whose time is of number type and whose data is
any non-null value of object type (arrays included), both ingestion
handlers accept the sample with the ok response, store it (as one push
into the bounded history) and broadcast it, with the data value passed
through completely unchanged, whatever the types of its members. -/
theorem c10_data_passed_through (st : SimulinkStreamState) (body : JValue)
    (n : JSNum)
    (hobj : typeofIsObject body = true) (hnn : body ≠ .null)
    (htime : getProp body "time" = .num n)
    (hdobj : typeofIsObject (getProp body "data") = true)
    (hdnn : getProp body "data" ≠ .null) :
    postData st body =
      (.ok,
        { st with samples := pushBounded st.maxSamples st.samples (ingestSample body) },
        some (ingestSample body)) ∧
    postSimData st body = postData st body := by
  have hacc : acceptableBody body := ⟨hobj, hnn, ⟨n, htime⟩, hdobj, hdnn⟩
  have hg := (postGuard_false_iff body).mpr hacc
  have hvalid : simSampleValid (ingestSample body) = true := by
    simp only [simSampleValid, ingestSample, Bool.and_eq_true]
    exact ⟨⟨by rw [htime]; rfl, jsTruthy_of_object hdobj hdnn⟩, hdobj⟩
  rw [postData, postSimData, if_neg (by rw [hg]; exact Bool.false_ne_true)]
  refine ⟨?_, rfl⟩
  simp [addSimulinkSample, hvalid]

/-- C10 witness: two concrete bodies — one whose data values are a
string, a boolean and a nested object, one whose data is an array —
are both accepted, stored and broadcast unchanged. -/
theorem c10_data_passed_through_witness :
    (postData simStateInit
      (.obj [("time", .num (.fin 0)),
             ("data", .obj [("s", .str "x"), ("b", .bool true),
                            ("o", .obj [("k", .null)])])])).1 = .ok ∧
    (postData simStateInit
      (.obj [("time", .num (.fin 0)),
             ("data", .arr [.num (.fin 1), .str "y"])])).2.2 =
      some ⟨.num (.fin 0), .arr [.num (.fin 1), .str "y"]⟩ := by
  constructor
  · have h := (c10_data_passed_through simStateInit
      (.obj [("time", .num (.fin 0)),
             ("data", .obj [("s", .str "x"), ("b", .bool true),
                            ("o", .obj [("k", .null)])])])
      (.fin 0) rfl (fun h => JValue.noConfusion h) rfl rfl
      (fun h => JValue.noConfusion h)).1
    rw [h]
  · have h := (c10_data_passed_through simStateInit
      (.obj [("time", .num (.fin 0)),
             ("data", .arr [.num (.fin 1), .str "y"])])
      (.fin 0) rfl (fun h => JValue.noConfusion h) rfl rfl
      (fun h => JValue.noConfusion h)).1
    rw [h]
    rfl

/-! ### C7 / C8: history queries and the connection greeting -/

theorem simBurst_map (l : List SimulinkSample) :
    simBurst (l.map WsMsg.simSample) = l := by
  induction l with
  | nil => rfl
  | cons x xs ih =>
    simp only [simBurst, List.map_cons, List.filterMap_cons] at *
    rw [ih]

theorem simBurst_onConnection (readings : List SofcReading)
    (st : SimulinkStreamState) :
    simBurst (onConnection readings st) = getSimulinkHistory st (some 1000) := by
  rw [onConnection]
  simp only [simBurst, List.filterMap_append]
  rw [show List.filterMap _ ((getSimulinkHistory st (some 1000)).map WsMsg.simSample)
      = simBurst ((getSimulinkHistory st (some 1000)).map WsMsg.simSample) from rfl,
    simBurst_map]
  simp [List.filterMap_cons]

/-- Slice with the negated minimum of limit and length keeps exactly
the last limit elements whenever the limit is positive. -/
theorem jsSliceFrom_neg_min {α : Type} (l : List α) (k : ℤ) (hk : 0 < k) :
    jsSliceFrom l (-(min k (l.length : ℤ))) = l.drop (l.length - k.toNat) := by
  cases l with
  | nil => simp [jsSliceFrom]
  | cons x xs =>
    have hlen : (0 : ℤ) < ((x :: xs).length : ℤ) := by simp
    have hc : 0 < min k ((x :: xs).length : ℤ) := lt_min hk hlen
    rw [jsSliceFrom, if_pos (by omega)]
    congr 1
    omega

theorem getReadingsHistory_eq_drop (l : List SofcReading) (k : ℤ) (hk : 0 < k) :
    getReadingsHistory l k = l.drop (l.length - k.toNat) :=
  jsSliceFrom_neg_min l k hk

theorem getSimulinkHistory_eq_drop (st : SimulinkStreamState) (k : ℤ) (hk : 0 < k) :
    getSimulinkHistory st (some k) = st.samples.drop (st.samples.length - k.toNat) :=
  jsSliceFrom_neg_min st.samples k hk

/-- C7 counterexample: with 101 readings stored and 1001 external
samples retained, the history snapshot sent at connection carries only
the most recent 100 readings (not the buffer) and the burst carries
only the most recent 1000 samples — not every retained external
sample, because the handler asks getSimulinkHistory for 1000 although
the buffer retains up to 2000. -/
theorem c7_connection_greeting_cex :
    (onConnection (List.replicate 101 rSample) c7SimState).head? =
      some (.history (List.replicate 100 rSample)) ∧
    List.replicate 100 rSample ≠ List.replicate 101 rSample ∧
    simBurst (onConnection (List.replicate 101 rSample) c7SimState) =
      List.replicate 1000 sampleB ∧
    List.replicate 1000 sampleB ≠ c7SimState.samples := by
  refine ⟨?_, ?_, ?_, ?_⟩
  · show some (WsMsg.history (getReadingsHistory (List.replicate 101 rSample) 100)) = _
    rw [getReadingsHistory_eq_drop _ 100 (by decide)]
    rw [List.length_replicate, show (101 - (100 : ℤ).toNat) = 1 from rfl,
      List.drop_replicate]
  · intro h
    have := congrArg List.length h
    simp at this
  · rw [simBurst_onConnection, getSimulinkHistory_eq_drop _ 1000 (by decide)]
    rw [show c7SimState.samples = List.replicate 1001 sampleB from rfl]
    rw [List.length_replicate, show (1001 - (1000 : ℤ).toNat) = 1 from rfl,
      List.drop_replicate]
  · intro h
    have := congrArg List.length h
    rw [List.length_replicate,
      show c7SimState.samples = List.replicate 1001 sampleB from rfl,
      List.length_replicate] at this
    exact absurd this (by decide)

/-- C7 amended: at registration the server delivers, before any live
event, exactly this sequence in order: (a) one history snapshot
holding the most recent (at most) 100 device readings, (b) a burst
with the most recent (at most) 1000 retained external samples — every
retained sample whenever at most 1000 are retained — and (c) one
welcome status event as the final message; the sequence contains no
live reading event. -/
theorem c7_connection_greeting (readings : List SofcReading)
    (st : SimulinkStreamState) :
    (onConnection readings st).head? =
      some (.history (readings.drop (readings.length - 100))) ∧
    simBurst (onConnection readings st) =
      st.samples.drop (st.samples.length - 1000) ∧
    (onConnection readings st).getLast? =
      some (.status "info" "Connected to SOFC monitoring server") ∧
    (∀ m ∈ onConnection readings st, ∀ r : SofcReading, m ≠ .reading r) ∧
    (st.samples.length ≤ 1000 → simBurst (onConnection readings st) = st.samples) := by
  refine ⟨?_, ?_, ?_, ?_, ?_⟩
  · show some (WsMsg.history (getReadingsHistory readings 100)) = _
    rw [getReadingsHistory_eq_drop _ 100 (by decide)]
    rfl
  · rw [simBurst_onConnection, getSimulinkHistory_eq_drop _ 1000 (by decide)]
    rfl
  · rw [show onConnection readings st
        = (WsMsg.history (getReadingsHistory readings 100)
            :: (getSimulinkHistory st (some 1000)).map WsMsg.simSample)
          ++ [WsMsg.status "info" "Connected to SOFC monitoring server"] by
      rw [onConnection]; simp]
    rw [List.getLast?_concat]
  · intro m hm r
    rw [onConnection] at hm
    simp only [List.mem_append, List.mem_singleton, List.mem_map] at hm
    rcases hm with (h | ⟨s, _, h⟩) | h <;> subst h <;> intro h <;> cases h
  · intro hle
    rw [simBurst_onConnection, getSimulinkHistory_eq_drop _ 1000 (by decide)]
    rw [show st.samples.length - (1000 : ℤ).toNat = 0 by omega, List.drop_zero]

/-- C7 amended witness: with one stored reading and one retained
sample, the snapshot is the whole buffer, the burst is the whole
retained sample list, and the message sequence ends with the welcome
status. -/
theorem c7_connection_greeting_witness :
    simBurst (onConnection [rSample] ⟨[sampleB], 2000⟩) = [sampleB] ∧
    (onConnection [rSample] ⟨[sampleB], 2000⟩).getLast? =
      some (.status "info" "Connected to SOFC monitoring server") := by
  have h := c7_connection_greeting [rSample] ⟨[sampleB], 2000⟩
  exact ⟨h.2.2.2.2 (by decide), h.2.2.1⟩

/-- Slice with the negated minimum of limit and length returns the
whole list when the limit is 0: the negation of 0 is 0, and slice at
start 0 copies the array (the JS expression slice(-0) is slice(0)). -/
theorem jsSliceFrom_min_zero {α : Type} (l : List α) :
    jsSliceFrom l (-(min 0 (l.length : ℤ))) = l := by
  have h0 : min (0 : ℤ) (l.length : ℤ) = 0 := min_eq_left (by positivity)
  rw [h0, neg_zero, jsSliceFrom, if_neg (by omega), h0]
  simp

/-- Slice with the negated minimum of limit and length, for a negative
limit: the minimum is the limit itself, its negation is positive, and
the slice drops the negated-limit oldest elements. -/
theorem jsSliceFrom_neg_min_neg {α : Type} (l : List α) (k : ℤ) (hk : k < 0) :
    jsSliceFrom l (-(min k (l.length : ℤ))) = l.drop (-k).toNat := by
  have hmin : min k (l.length : ℤ) = k :=
    min_eq_left (le_trans (le_of_lt hk) (by positivity))
  rw [hmin, jsSliceFrom, if_neg (by omega)]
  by_cases hle : -k ≤ (l.length : ℤ)
  · rw [min_eq_left hle]
  · rw [min_eq_right (le_of_not_le hle)]
    rw [Int.toNat_natCast, List.drop_length]
    symm
    apply List.drop_eq_nil_of_le
    omega

theorem getReadingsHistory_zero (l : List SofcReading) :
    getReadingsHistory l 0 = l :=
  jsSliceFrom_min_zero l

theorem getSimulinkHistory_zero (st : SimulinkStreamState) :
    getSimulinkHistory st (some 0) = st.samples :=
  jsSliceFrom_min_zero st.samples

theorem getReadingsHistory_neg (l : List SofcReading) (k : ℤ) (hk : k < 0) :
    getReadingsHistory l k = l.drop (-k).toNat :=
  jsSliceFrom_neg_min_neg l k hk

theorem getSimulinkHistory_neg (st : SimulinkStreamState) (k : ℤ) (hk : k < 0) :
    getSimulinkHistory st (some k) = st.samples.drop (-k).toNat :=
  jsSliceFrom_neg_min_neg st.samples k hk

/-- C8 counterexample, three failing limit arguments: (a) with 101
readings stored, the device history query with the limit omitted
returns only the most recent 100 readings, not the entire buffer (the
default parameter in the source is 100); (b) with limit 0 — reachable
as the query string limit=0 on the sim endpoint — the query returns
the entire two-element buffer, not up to 0 items, because slice(-0) is
slice(0); (c) with limit -1 the device query returns two of three
stored readings (slice(1), dropping the oldest), again more than "up
to limit" items. -/
theorem c8_history_limit_cex :
    (getReadingsHistoryDefault (List.replicate 101 rSample) =
        List.replicate 100 rSample ∧
      List.replicate 100 rSample ≠ List.replicate 101 rSample) ∧
    (getSimulinkHistory ⟨[sampleB, sampleB], 2000⟩ (some 0) = [sampleB, sampleB] ∧
      (getSimulinkHistory ⟨[sampleB, sampleB], 2000⟩ (some 0)).length = 2 ∧
      ¬ ((getSimulinkHistory ⟨[sampleB, sampleB], 2000⟩ (some 0)).length ≤ 0)) ∧
    (getReadingsHistory [rSample, rSample, rSample] (-1) = [rSample, rSample] ∧
      (getReadingsHistory [rSample, rSample, rSample] (-1)).length = 2) := by
  refine ⟨⟨?_, ?_⟩, ⟨rfl, rfl, by decide⟩, rfl, rfl⟩
  · rw [getReadingsHistoryDefault, getReadingsHistory_eq_drop _ 100 (by decide)]
    rw [List.length_replicate, show (101 - (100 : ℤ).toNat) = 1 from rfl,
      List.drop_replicate]
  · intro h
    have := congrArg List.length h
    simp at this

/-- C8 amended: for every buffer state and every limit argument — for
a positive limit both history queries return the min(limit, length)
most-recent items in original oldest-to-newest order; for limit 0 both
queries return the entire buffer (slice(-0) is slice(0)); for a
negative limit both queries return the buffer with the negated-limit
oldest items removed; and when the limit is omitted the
external-sample query returns the entire buffer, while the
device-reading query falls back to the default limit 100. -/
theorem c8_history_query_semantics (rs : List SofcReading)
    (st : SimulinkStreamState) (k : ℤ) :
    (0 < k →
      getReadingsHistory rs k = rs.drop (rs.length - k.toNat) ∧
      (getReadingsHistory rs k).length = min k.toNat rs.length ∧
      getSimulinkHistory st (some k) = st.samples.drop (st.samples.length - k.toNat)) ∧
    (k = 0 →
      getReadingsHistory rs k = rs ∧
      getSimulinkHistory st (some k) = st.samples) ∧
    (k < 0 →
      getReadingsHistory rs k = rs.drop (-k).toNat ∧
      getSimulinkHistory st (some k) = st.samples.drop (-k).toNat) ∧
    getSimulinkHistory st none = st.samples ∧
    getReadingsHistoryDefault rs = getReadingsHistory rs 100 := by
  refine ⟨fun hk => ⟨getReadingsHistory_eq_drop rs k hk, ?_,
      getSimulinkHistory_eq_drop st k hk⟩,
    fun hk => ?_, fun hk => ⟨getReadingsHistory_neg rs k hk,
      getSimulinkHistory_neg st k hk⟩, rfl, rfl⟩
  · rw [getReadingsHistory_eq_drop rs k hk, List.length_drop]
    omega
  · subst hk
    exact ⟨getReadingsHistory_zero rs, getSimulinkHistory_zero st⟩

/-- C8 amended witness: limit 1 on two stored readings returns just
the most recent one, limit 0 returns the whole buffer, limit -1 drops
only the oldest reading, and the sim query with no limit returns the
whole buffer. -/
theorem c8_history_query_semantics_witness :
    getReadingsHistory [rSample, rSample] 1 = [rSample] ∧
    getReadingsHistory [rSample, rSample] 0 = [rSample, rSample] ∧
    getReadingsHistory [rSample, rSample] (-1) = [rSample] ∧
    getSimulinkHistory ⟨[sampleB], 2000⟩ none = [sampleB] := by
  have h := c8_history_query_semantics [rSample, rSample] ⟨[sampleB], 2000⟩ 1
  have h0 := c8_history_query_semantics [rSample, rSample] ⟨[sampleB], 2000⟩ 0
  have hn := c8_history_query_semantics [rSample, rSample] ⟨[sampleB], 2000⟩ (-1)
  refine ⟨?_, (h0.2.1 rfl).1, ?_, h.2.2.2.1⟩
  · rw [(h.1 (by decide)).1]; rfl
  · rw [(hn.2.2.1 (by decide)).1]; rfl

/-! ### C9: reconnect timer discipline -/

theorem clearSlotTimer_pending {s : TimerState} (h : TimerInv s) :
    (clearSlotTimer s).pending = [] := by
  rcases h with h | ⟨t, hp, hs⟩
  · rw [clearSlotTimer]
    cases hslot : s.slot <;> simp [h, hslot, List.erase_nil]
  · simp [clearSlotTimer, hs, hp, List.erase_cons_head]

theorem scheduleReconnect_pending {s : TimerState} (h : TimerInv s) :
    (scheduleReconnect s).pending = [s.nextId] ∧
    (scheduleReconnect s).slot = some s.nextId := by
  rcases h with h | ⟨t, hp, hs⟩
  · cases hslot : s.slot <;>
      simp [scheduleReconnect, h, hslot, List.erase_nil]
  · simp [scheduleReconnect, hp, hs, List.erase_cons_head]

theorem timerInv_clearSlotTimer {s : TimerState} (h : TimerInv s) :
    TimerInv (clearSlotTimer s) :=
  Or.inl (clearSlotTimer_pending h)

theorem timerInv_scheduleReconnect {s : TimerState} (h : TimerInv s) :
    TimerInv (scheduleReconnect s) := by
  obtain ⟨hp, hs⟩ := scheduleReconnect_pending h
  exact Or.inr ⟨s.nextId, hp, hs⟩

theorem timerInv_sstep {s : TimerState} (h : TimerInv s) (e : SEv) :
    TimerInv (sstep s e) := by
  cases e with
  | connectOk => exact timerInv_clearSlotTimer h
  | connectFail => exact timerInv_scheduleReconnect (timerInv_clearSlotTimer h)
  | transportError => exact timerInv_scheduleReconnect h
  | transportClose => exact timerInv_scheduleReconnect h
  | shutdown => exact timerInv_clearSlotTimer h
  | timerFire tid ok =>
    rw [sstep]
    by_cases hmem : tid ∈ s.pending
    · rw [if_pos hmem]
      have hp : s.pending = [tid] := by
        rcases h with h | ⟨t, hp, _⟩
        · rw [h] at hmem; cases hmem
        · rw [hp] at hmem ⊢
          rw [List.mem_singleton.mp hmem]
      have h1 : TimerInv { s with pending := s.pending.erase tid } := by
        left
        rw [hp, List.erase_cons_head]
      cases ok
      · exact timerInv_scheduleReconnect (timerInv_clearSlotTimer h1)
      · exact timerInv_clearSlotTimer h1
    · rw [if_neg hmem]
      exact h

theorem timerInv_reachable (evs : List SEv) :
    TimerInv (evs.foldl sstep timerInit) := by
  induction evs using List.reverseRecOn with
  | nil => exact Or.inl rfl
  | append_singleton evs e ih =>
    rw [List.foldl_append, List.foldl_cons, List.foldl_nil]
    exact timerInv_sstep ih e

/-- C9: in every reachable state of the device link, at most one
pending reconnect timer exists; every connection failure (failed open,
transport error, transport close) leaves exactly one pending reconnect
timer — the previous one, if any, having been cancelled first — and a
successful connect attempt (which runs closeSerial before opening) and
shutdown cancel the pending timer. -/
theorem c9_single_reconnect_timer (evs : List SEv) :
    ((evs.foldl sstep timerInit).pending.length ≤ 1) ∧
    (∀ e, (e = .connectFail ∨ e = .transportError ∨ e = .transportClose) →
      (sstep (evs.foldl sstep timerInit) e).pending.length = 1) ∧
    ((sstep (evs.foldl sstep timerInit) .connectOk).pending = []) ∧
    ((sstep (evs.foldl sstep timerInit) .shutdown).pending = []) := by
  have hinv := timerInv_reachable evs
  refine ⟨?_, ?_, clearSlotTimer_pending hinv, clearSlotTimer_pending hinv⟩
  · rcases hinv with h | ⟨t, hp, _⟩
    · rw [h]; simp
    · rw [hp]; simp
  · intro e he
    rcases he with he | he | he <;> subst he
    · rw [show sstep (evs.foldl sstep timerInit) .connectFail
          = scheduleReconnect (clearSlotTimer (evs.foldl sstep timerInit)) from rfl]
      rw [(scheduleReconnect_pending (timerInv_clearSlotTimer hinv)).1]
      rfl
    · rw [show sstep (evs.foldl sstep timerInit) .transportError
          = scheduleReconnect (evs.foldl sstep timerInit) from rfl]
      rw [(scheduleReconnect_pending hinv).1]
      rfl
    · rw [show sstep (evs.foldl sstep timerInit) .transportClose
          = scheduleReconnect (evs.foldl sstep timerInit) from rfl]
      rw [(scheduleReconnect_pending hinv).1]
      rfl

/-- C9 witness: after a failed connect attempt from the initial state
exactly one reconnect timer is pending. -/
theorem c9_single_reconnect_timer_witness :
    (sstep (([] : List SEv).foldl sstep timerInit) .connectFail).pending.length = 1 :=
  (c9_single_reconnect_timer []).2.1 .connectFail (Or.inl rfl)

end SOFC
